import Mathlib

/-!
Shallow embedding of the `belopash/batch-balances-squid` repository
(Generation A balance-indexing pipeline).

Sources embedded:
  * `src/processor.ts` — the pipeline (`processBalances`, the per-item
    collectors, the per-event account extractors, `getBalances` and the two
    storage readers, `getOriginAccountId`, `UnknownVersionError`);
  * `src/types/generated/storage.ts` — the versioned storage accessors
    (`SystemAccountStorage`, `BalancesAccountStorage`) with their literal
    type-hash fingerprints;
  * the two migration scripts (`Init1655830554126`,
    `AddUpdatedAt1655843090639`).

Modelling conventions: TypeScript `bigint` balances are `Int`; raw
`Uint8Array` account ids are `List Nat` byte lists; thrown exceptions are
`Except String`; the chain runtime context (an external boundary per the
spec, §4.5) is a record of functions; storage reads and persistence writes
performed by a batch are collected into an explicit effect trace.
-/

/-- Raw account-id byte sequence (TypeScript `Uint8Array`). -/
abbrev Bytes := List Nat

/-! ### Hex codec

`toHex` / `decodeHex` come from `@subsquid/substrate-processor` (an external
boundary library): the standard 0x-prefixed lowercase hex rendering of a byte
sequence, and its inverse. -/

def hexChar (n : Nat) : Char :=
  if n < 10 then Char.ofNat (48 + n) else Char.ofNat (87 + n)

def byteToHex (b : Nat) : List Char :=
  [hexChar (b / 16 % 16), hexChar (b % 16)]

def toHex (bs : Bytes) : String :=
  String.mk ('0' :: 'x' :: bs.flatMap byteToHex)

def hexVal (c : Char) : Nat :=
  if 48 ≤ c.toNat ∧ c.toNat ≤ 57 then c.toNat - 48
  else if 97 ≤ c.toNat ∧ c.toNat ≤ 102 then c.toNat - 87
  else 0

def decodeHexChars : List Char → Bytes
  | a :: b :: rest => (hexVal a * 16 + hexVal b) :: decodeHexChars rest
  | _ => []

def decodeHex (s : String) : Bytes :=
  decodeHexChars (s.data.drop 2)

/-! ### Chain-side data shapes (src/types/generated, spec §3) -/

/-- `AccountData`: the balance record stored under `Balances.Account`
(free and reserved balances; later runtime versions add further fields the
pipeline never reads). -/
structure AccountData where
  free : Int
  reserved : Int
deriving DecidableEq, Repr

/-- `AccountInfo`: the record stored under `System.Account` — bookkeeping
fields (nonce, reference counters, here collapsed to `nonce`) plus the nested
`data : AccountData`; only the nested balance fields are consumed. -/
structure AccountInfo where
  nonce : Nat
  data : AccountData
deriving DecidableEq, Repr

/-- The `Balance` interface of `src/processor.ts`. -/
structure Balance where
  free : Int
  reserved : Int
deriving DecidableEq, Repr

/-- Chain runtime context (external boundary capability, spec §4.5):
the active type-hash fingerprint per storage item, and the chain state
readable per block hash.  `systemAccount` / `balancesAccount` give, for a
block hash and an account key, the stored value or `none` when the key has
no stored value (the per-key absence of `queryStorage`). -/
structure Chain where
  storageItemTypeHash : String → String → Option String
  systemAccount : String → Bytes → Option AccountInfo
  balancesAccount : String → Bytes → Option AccountData

structure BlockHeader where
  height : Nat
  hash : String
deriving DecidableEq, Repr

/-! ### Versioned storage accessors (src/types/generated/storage.ts)

Each literal string below is the exact storage-item type hash recorded in the
source for that runtime version. -/

def systemAccountHashV1050 : String :=
  "2208f857b7cd6fecf78ca393cf3d17ec424773727d0028f07c9f0dc608fc1b7a"

def systemAccountHashV2025 : String :=
  "eb40f1d91f26d72e29c60e034d53a72b9b529014c7e108f422d8ad5f03f0c902"

def systemAccountHashV2028 : String :=
  "73070b537f1805475b37167271b33ac7fd6ffad8ba62da08bc14937a017b8bb2"

def systemAccountHashV2030 : String :=
  "1ddc7ade926221442c388ee4405a71c9428e548fab037445aaf4b3a78f4735c1"

def balancesAccountHashV1050 : String :=
  "0b3b4bf0dd7388459eba461bc7c3226bf58608c941710a714e02f33ec0f91e78"

def SystemAccountStorage.isV1050 (ch : Chain) : Bool :=
  ch.storageItemTypeHash "System" "Account" == some systemAccountHashV1050

def SystemAccountStorage.isV2025 (ch : Chain) : Bool :=
  ch.storageItemTypeHash "System" "Account" == some systemAccountHashV2025

def SystemAccountStorage.isV2028 (ch : Chain) : Bool :=
  ch.storageItemTypeHash "System" "Account" == some systemAccountHashV2028

def SystemAccountStorage.isV2030 (ch : Chain) : Bool :=
  ch.storageItemTypeHash "System" "Account" == some systemAccountHashV2030

def SystemAccountStorage.isExists (ch : Chain) : Bool :=
  (ch.storageItemTypeHash "System" "Account").isSome

def BalancesAccountStorage.isV1050 (ch : Chain) : Bool :=
  ch.storageItemTypeHash "Balances" "Account" == some balancesAccountHashV1050

def BalancesAccountStorage.isExists (ch : Chain) : Bool :=
  (ch.storageItemTypeHash "Balances" "Account").isSome

/-! ### Events and calls delivered by the batch framework -/

/-- Modelled from the spec: the decoded form of a subscribed balance event
(the decode layer `src/types/generated/events.ts` is imported by the
processor but is not present under `src/`).  Per spec §4.3 a decoder exposes
the event's declared type fingerprint and extracts the typed field set —
account-id fields (`accounts`, in positional order, e.g. transfer's
`(from, to)` pair) and the numeric balance amount the event carries
(`amount`, which the pipeline never reads). -/
structure Event where
  name : String
  fingerprint : String
  accounts : List Bytes
  amount : Int
deriving DecidableEq, Repr

/-- Modelled from the spec: the literal fingerprint tables of the versioned
event decoders (`src/types/generated/events.ts`, absent from `src/`); spec
§4.3: one boolean predicate per known historical encoding, true iff the
event's declared fingerprint equals the literal recorded for that encoding.
One field per version predicate consulted by `src/processor.ts`. -/
structure EventFingerprints where
  balanceSetV1031 : String
  balanceSetV9130 : String
  transferV1020 : String
  transferV1050 : String
  transferV9130 : String
  endowedV1050 : String
  endowedV9130 : String
  depositV1032 : String
  depositV9130 : String
  reservedV2008 : String
  reservedV9130 : String
  unreservedV2008 : String
  unreservedV9130 : String
  withdrawV9122 : String
  withdrawV9130 : String
  slashedV9122 : String
  slashedV9130 : String
  reserveRepatriatedV2008 : String
  reserveRepatriatedV9130 : String
deriving DecidableEq, Repr

/-- A call's origin as delivered by the framework: the tagged
`{__kind, value: {__kind, value}}` shape read by `getOriginAccountId`
(`value` holds the signer's account id as a hex string). -/
structure Origin where
  kind : String
  valueKind : String
  value : String
deriving DecidableEq, Repr

/-- A call item: `parent` is `some`-thing exactly when the call has a parent
call (`call.parent != null`). -/
structure Call where
  parent : Option Nat
  origin : Origin
deriving DecidableEq, Repr

inductive Item where
  | call (c : Call)
  | event (e : Event)
deriving DecidableEq, Repr

structure Block where
  header : BlockHeader
  items : List Item
deriving DecidableEq, Repr

/-! ### Error taxonomy (src/processor.ts, `UnknownVersionError`) -/

/-- The message of `UnknownVersionError`, carrying the decoder's type name. -/
def UnknownVersionError (name : String) : String :=
  "There is no relevant version for " ++ name

/-! ### Per-event account extractors (src/processor.ts) -/

def getBalanceSetAccount (fps : EventFingerprints) (e : Event) : Except String String :=
  if e.fingerprint = fps.balanceSetV1031 then
    .ok (toHex (e.accounts.getD 0 []))
  else if e.fingerprint = fps.balanceSetV9130 then
    .ok (toHex (e.accounts.getD 0 []))
  else
    .error (UnknownVersionError "BalancesBalanceSetEvent")

def getTransferAccounts (fps : EventFingerprints) (e : Event) :
    Except String (String × String) :=
  if e.fingerprint = fps.transferV1020 then
    .ok (toHex (e.accounts.getD 0 []), toHex (e.accounts.getD 1 []))
  else if e.fingerprint = fps.transferV1050 then
    .ok (toHex (e.accounts.getD 0 []), toHex (e.accounts.getD 1 []))
  else if e.fingerprint = fps.transferV9130 then
    .ok (toHex (e.accounts.getD 0 []), toHex (e.accounts.getD 1 []))
  else
    .error (UnknownVersionError "BalancesTransferEvent")

def getEndowedAccount (fps : EventFingerprints) (e : Event) : Except String String :=
  if e.fingerprint = fps.endowedV1050 then
    .ok (toHex (e.accounts.getD 0 []))
  else if e.fingerprint = fps.endowedV9130 then
    .ok (toHex (e.accounts.getD 0 []))
  else
    .error (UnknownVersionError "BalancesEndowedEvent")

def getDepositAccount (fps : EventFingerprints) (e : Event) : Except String String :=
  if e.fingerprint = fps.depositV1032 then
    .ok (toHex (e.accounts.getD 0 []))
  else if e.fingerprint = fps.depositV9130 then
    .ok (toHex (e.accounts.getD 0 []))
  else
    .error (UnknownVersionError "BalancesDepositEvent")

def getReservedAccount (fps : EventFingerprints) (e : Event) : Except String String :=
  if e.fingerprint = fps.reservedV2008 then
    .ok (toHex (e.accounts.getD 0 []))
  else if e.fingerprint = fps.reservedV9130 then
    .ok (toHex (e.accounts.getD 0 []))
  else
    .error (UnknownVersionError "BalancesReservedEvent")

def getUnreservedAccount (fps : EventFingerprints) (e : Event) : Except String String :=
  if e.fingerprint = fps.unreservedV2008 then
    .ok (toHex (e.accounts.getD 0 []))
  else if e.fingerprint = fps.unreservedV9130 then
    .ok (toHex (e.accounts.getD 0 []))
  else
    .error (UnknownVersionError "BalancesUnreservedEvent")

def getWithdrawAccount (fps : EventFingerprints) (e : Event) : Except String String :=
  if e.fingerprint = fps.withdrawV9122 then
    .ok (toHex (e.accounts.getD 0 []))
  else if e.fingerprint = fps.withdrawV9130 then
    .ok (toHex (e.accounts.getD 0 []))
  else
    .error (UnknownVersionError "BalancesWithdrawEvent")

def getSlashedAccount (fps : EventFingerprints) (e : Event) : Except String String :=
  if e.fingerprint = fps.slashedV9122 then
    .ok (toHex (e.accounts.getD 0 []))
  else if e.fingerprint = fps.slashedV9130 then
    .ok (toHex (e.accounts.getD 0 []))
  else
    .error (UnknownVersionError "BalancesSlashedEvent")

def getReserveRepatriatedAccounts (fps : EventFingerprints) (e : Event) :
    Except String (String × String) :=
  if e.fingerprint = fps.reserveRepatriatedV2008 then
    .ok (toHex (e.accounts.getD 0 []), toHex (e.accounts.getD 1 []))
  else if e.fingerprint = fps.reserveRepatriatedV9130 then
    .ok (toHex (e.accounts.getD 0 []), toHex (e.accounts.getD 1 []))
  else
    .error (UnknownVersionError "BalancesReserveRepatriatedEvent")

/-! ### Origin handling and working-set collection (src/processor.ts) -/

def getOriginAccountId (origin : Origin) : Option String :=
  if origin.kind = "system" ∧ origin.valueKind = "Signed" then
    some origin.value
  else
    none

/-- JavaScript `Set<string>.add`: insertion-ordered, deduplicating. -/
def setAdd (s : List String) (v : String) : List String :=
  if v ∈ s then s else s ++ [v]

def processBalancesCallItem (item : Call) (accountIdsHex : List String) : List String :=
  if item.parent ≠ none then accountIdsHex
  else
    match getOriginAccountId item.origin with
    | none => accountIdsHex
    | some id => setAdd accountIdsHex id

def processBalancesEventItem (fps : EventFingerprints) (item : Event)
    (accountIdsHex : List String) : Except String (List String) :=
  if item.name = "Balances.BalanceSet" then do
    let account ← getBalanceSetAccount fps item
    .ok (setAdd accountIdsHex account)
  else if item.name = "Balances.Endowed" then do
    let account ← getEndowedAccount fps item
    .ok (setAdd accountIdsHex account)
  else if item.name = "Balances.Deposit" then do
    let account ← getDepositAccount fps item
    .ok (setAdd accountIdsHex account)
  else if item.name = "Balances.Reserved" then do
    let account ← getReservedAccount fps item
    .ok (setAdd accountIdsHex account)
  else if item.name = "Balances.Unreserved" then do
    let account ← getUnreservedAccount fps item
    .ok (setAdd accountIdsHex account)
  else if item.name = "Balances.Withdraw" then do
    let account ← getWithdrawAccount fps item
    .ok (setAdd accountIdsHex account)
  else if item.name = "Balances.Slashed" then do
    let account ← getSlashedAccount fps item
    .ok (setAdd accountIdsHex account)
  else if item.name = "Balances.Transfer" then do
    let accounts ← getTransferAccounts fps item
    .ok (setAdd (setAdd accountIdsHex accounts.1) accounts.2)
  else if item.name = "Balances.ReserveRepatriated" then do
    let accounts ← getReserveRepatriatedAccounts fps item
    .ok (setAdd (setAdd accountIdsHex accounts.1) accounts.2)
  else
    .ok accountIdsHex

def collectItem (fps : EventFingerprints) (accountIdsHex : List String) :
    Item → Except String (List String)
  | .call c => .ok (processBalancesCallItem c accountIdsHex)
  | .event e => processBalancesEventItem fps e accountIdsHex

def collectItems (fps : EventFingerprints) :
    List Item → List String → Except String (List String)
  | [], acc => .ok acc
  | i :: rest, acc =>
    match collectItem fps acc i with
    | .error msg => .error msg
    | .ok acc2 => collectItems fps rest acc2

def collectBatch (fps : EventFingerprints) :
    List Block → List String → Except String (List String)
  | [], acc => .ok acc
  | b :: rest, acc =>
    match collectItems fps b.items acc with
    | .error msg => .error msg
    | .ok acc2 => collectBatch fps rest acc2

/-! ### Storage resolution (src/processor.ts, `getBalances`) -/

/-- One `ctx._chain.queryStorage` invocation, as recorded in the effect
trace: the queried block hash, pallet, item, and key list. -/
structure StorageQuery where
  blockHash : String
  pallet : String
  item : String
  keys : List Bytes
deriving DecidableEq, Repr

def getSystemAccountBalances (ch : Chain) (block : BlockHeader) (accounts : List Bytes) :
    List StorageQuery × Option (List (Option Balance)) :=
  if SystemAccountStorage.isExists ch then
    ([⟨block.hash, "System", "Account", accounts⟩],
      some ((accounts.map (ch.systemAccount block.hash)).map fun d =>
        d.map fun a => ⟨a.data.free, a.data.reserved⟩))
  else ([], none)

def getBalancesAccountBalances (ch : Chain) (block : BlockHeader) (accounts : List Bytes) :
    List StorageQuery × Option (List (Option Balance)) :=
  if BalancesAccountStorage.isExists ch then
    ([⟨block.hash, "Balances", "Account", accounts⟩],
      some ((accounts.map (ch.balancesAccount block.hash)).map fun d =>
        d.map fun a => ⟨a.free, a.reserved⟩))
  else ([], none)

def getBalances (ch : Chain) (block : BlockHeader) (accounts : List Bytes) :
    List StorageQuery × Option (List (Option Balance)) :=
  let sys := getSystemAccountBalances ch block accounts
  match sys.2 with
  | some r => (sys.1, some r)
  | none =>
    let bal := getBalancesAccountBalances ch block accounts
    (sys.1 ++ bal.1, bal.2)

/-! ### Persisted data model (src/model, spec §3) -/

/-- Modelled from the spec: the persisted `Account` entity of `src/model`
(that module is imported by the processor but not present under `src/`);
spec §3 — primary key `id` (encoded address), `free`, `reserved`, `total`,
and `updatedAt` (block height of last update). -/
structure Account where
  id : String
  free : Int
  reserved : Int
  total : Int
  updatedAt : Nat
deriving DecidableEq, Repr

/-- JavaScript `Map<string, Account>.set`: overwrite in place when the key is
present, append otherwise. -/
def mapSet (m : List Account) (a : Account) : List Account :=
  if m.any (fun x => x.id == a.id) then
    m.map (fun x => if x.id = a.id then a else x)
  else m ++ [a]

def countKey (m : List Account) (k : String) : Nat :=
  m.countP (fun a => a.id == k)

/-- The record-building loop of `processBalances` (`for (let i = 0; ...)`):
walk the account list and the resolved balance list in step, skip unresolved
entries, and upsert a fresh record for each resolved one. -/
def buildAccounts (enc : Bytes → String) (h : Nat) :
    List Bytes → List (Option Balance) → List Account → List Account
  | [], _, m => m
  | _ :: ids, [], m => buildAccounts enc h ids [] m
  | _ :: ids, none :: bs, m => buildAccounts enc h ids bs m
  | id :: ids, some b :: bs, m =>
    buildAccounts enc h ids bs
      (mapSet m ⟨enc id, b.free, b.reserved, b.free + b.reserved, h⟩)

/-! ### The batch handler (src/processor.ts, `processBalances`) -/

/-- Everything externally observable that one batch produces: the storage
queries issued, the records passed to `store.save`, the records removed
(Generation A never removes any), and the log lines. -/
structure BatchEffects where
  storageQueries : List StorageQuery
  saved : List Account
  deleted : List String
  warnings : List String
  infos : List String
deriving DecidableEq, Repr

/-- The pipeline configuration: the chain runtime context, the decoder
fingerprint tables, and the address codec (`encodeId`, the external ss58
kusama codec). -/
structure Config where
  chain : Chain
  fps : EventFingerprints
  encodeId : Bytes → String

def emptyEffects : BatchEffects := ⟨[], [], [], [], []⟩

def processBalances (cfg : Config) (blocks : List Block) : Except String BatchEffects :=
  match collectBatch cfg.fps blocks [] with
  | .error msg => .error msg
  | .ok accountIdsHex =>
    if accountIdsHex.isEmpty then .ok emptyEffects
    else
      let block := blocks.getLastD ⟨⟨0, ""⟩, []⟩
      let accountIdsU8 := accountIdsHex.map decodeHex
      let qr := getBalances cfg.chain block.header accountIdsU8
      match qr.2 with
      | none => .ok ⟨qr.1, [], [], ["No balances"], []⟩
      | some balances =>
        let accounts :=
          buildAccounts cfg.encodeId block.header.height accountIdsU8 balances []
        .ok ⟨qr.1, accounts, [], [], ["updated: " ++ toString accounts.length]⟩

/-! ### Migration scripts -/

structure Column where
  name : String
  colType : String
  notNull : Bool
deriving DecidableEq, Repr

structure Table where
  name : String
  columns : List Column
  primaryKey : List String
deriving DecidableEq, Repr

/-- The relational schema state the migration scripts transform. -/
abbrev Database := List Table

def createTable (db : Database) (t : Table) : Database := db ++ [t]

def dropTable (db : Database) (n : String) : Database :=
  db.filter (fun t => t.name ≠ n)

def addColumn (db : Database) (tn : String) (c : Column) : Database :=
  db.map (fun t => if t.name = tn then { t with columns := t.columns ++ [c] } else t)

def dropColumn (db : Database) (tn cn : String) : Database :=
  db.map (fun t =>
    if t.name = tn then { t with columns := t.columns.filter (fun c => c.name ≠ cn) }
    else t)

def accountTableInit : Table :=
  ⟨"account",
    [⟨"id", "character varying", true⟩,
     ⟨"free", "numeric", true⟩,
     ⟨"reserved", "numeric", true⟩,
     ⟨"total", "numeric", true⟩],
    ["id"]⟩

def snapshotTableInit : Table :=
  ⟨"snapshot",
    [⟨"id", "character varying", true⟩,
     ⟨"timestamp", "TIMESTAMP WITH TIME ZONE", true⟩,
     ⟨"holders_count", "integer", true⟩,
     ⟨"block_number", "integer", true⟩],
    ["id"]⟩

def Init1655830554126.up (db : Database) : Database :=
  createTable (createTable db accountTableInit) snapshotTableInit

def Init1655830554126.down (db : Database) : Database :=
  dropTable (dropTable db "account") "snapshot"

def AddUpdatedAt1655843090639.up (db : Database) : Database :=
  addColumn db "account" ⟨"updated_at", "integer", false⟩

def AddUpdatedAt1655843090639.down (db : Database) : Database :=
  dropColumn db "account" "updated_at"

/-! ### Helper lemmas: working set, map upsert, key counting -/

theorem mem_setAdd {s : List String} {v x : String} :
    x ∈ setAdd s v ↔ x ∈ s ∨ x = v := by
  unfold setAdd
  split
  · constructor
    · exact Or.inl
    · rintro (h | rfl)
      · exact h
      · assumption
  · simp

def keyNodup (m : List Account) : Prop :=
  (m.map Account.id).Nodup

theorem keyNodup_nil : keyNodup [] := by
  simp [keyNodup]

theorem mapSet_map_id (m : List Account) (a : Account) :
    (m.map (fun x => if x.id = a.id then a else x)).map Account.id = m.map Account.id := by
  induction m with
  | nil => rfl
  | cons y ys ih =>
    simp only [List.map_cons, ih, List.cons.injEq, and_true]
    split
    · simp_all
    · rfl

theorem countKey_replace (m : List Account) (a : Account) (k : String) :
    countKey (m.map (fun x => if x.id = a.id then a else x)) k = countKey m k := by
  induction m with
  | nil => rfl
  | cons y ys ih =>
    simp only [List.map_cons, countKey, List.countP_cons] at *
    rw [ih]
    congr 1
    split
    · simp_all
    · rfl

theorem countKey_append_single (m : List Account) (a : Account) (k : String) :
    countKey (m ++ [a]) k = countKey m k + (if a.id = k then 1 else 0) := by
  simp [countKey, List.countP_append, List.countP_cons]

theorem countKey_eq_zero {m : List Account} {k : String} :
    countKey m k = 0 ↔ ∀ a ∈ m, a.id ≠ k := by
  simp [countKey, List.countP_eq_zero]

theorem countKey_pos {m : List Account} {k : String} :
    0 < countKey m k ↔ ∃ a ∈ m, a.id = k := by
  simp [countKey, List.countP_pos_iff]

theorem keyNodup_mapSet {m : List Account} (a : Account) (h : keyNodup m) :
    keyNodup (mapSet m a) := by
  unfold mapSet
  split
  · unfold keyNodup
    rw [mapSet_map_id]
    exact h
  · rename_i hany
    unfold keyNodup
    rw [List.map_append]
    simp only [List.map_cons, List.map_nil]
    rw [List.nodup_append]
    refine ⟨h, List.nodup_singleton _, ?_⟩
    intro x hx
    simp only [List.mem_singleton]
    intro hxa
    rw [Bool.not_eq_true, List.any_eq_false] at hany
    obtain ⟨y, hy, hyx⟩ := List.mem_map.mp hx
    exact hany y hy (by simp [hyx, hxa])

theorem countKey_le_one_of_keyNodup {m : List Account} (h : keyNodup m) (k : String) :
    countKey m k ≤ 1 := by
  induction m with
  | nil => simp [countKey]
  | cons y ys ih =>
    unfold keyNodup at h
    simp only [List.map_cons, List.nodup_cons] at h
    rw [countKey, List.countP_cons]
    by_cases hy : y.id = k
    · have hzero : countKey ys k = 0 := by
        rw [countKey_eq_zero]
        intro a ha hak
        exact h.1 (List.mem_map.mpr ⟨a, ha, by rw [hak, hy]⟩)
      rw [countKey] at hzero
      simp [hzero, hy]
    · have htail := ih h.2
      rw [countKey] at htail
      simpa [hy] using htail

theorem mem_mapSet_self (m : List Account) (a : Account) :
    a ∈ mapSet m a := by
  unfold mapSet
  split
  · rename_i hany
    rw [List.any_eq_true] at hany
    obtain ⟨x, hx, hxa⟩ := hany
    refine List.mem_map.mpr ⟨x, hx, ?_⟩
    simp only [beq_iff_eq] at hxa
    simp [hxa]
  · simp

theorem mem_mapSet_of_ne {m : List Account} {x : Account} (a : Account)
    (hx : x ∈ m) (hne : x.id ≠ a.id) : x ∈ mapSet m a := by
  unfold mapSet
  split
  · refine List.mem_map.mpr ⟨x, hx, ?_⟩
    simp [hne]
  · exact List.mem_append_left _ hx

theorem mem_mapSet_cases {m : List Account} {x : Account} {a : Account}
    (h : x ∈ mapSet m a) : x ∈ m ∨ x = a := by
  unfold mapSet at h
  split at h
  · obtain ⟨y, hy, hyx⟩ := List.mem_map.mp h
    by_cases hc : y.id = a.id
    · right; simp [hc] at hyx; exact hyx.symm
    · left; simp [hc] at hyx; exact hyx ▸ hy
  · rcases List.mem_append.mp h with h | h
    · exact Or.inl h
    · exact Or.inr (List.mem_singleton.mp h)

theorem countKey_mapSet_self {m : List Account} (a : Account)
    (h : countKey m a.id ≤ 1) : countKey (mapSet m a) a.id = 1 := by
  unfold mapSet
  split
  · rename_i hany
    rw [countKey_replace]
    rw [List.any_eq_true] at hany
    obtain ⟨x, hx, hxa⟩ := hany
    have : 0 < countKey m a.id := countKey_pos.mpr ⟨x, hx, by simpa using hxa⟩
    omega
  · rename_i hany
    rw [countKey_append_single]
    have : countKey m a.id = 0 := by
      rw [countKey_eq_zero]
      intro x hx hxa
      rw [Bool.not_eq_true, List.any_eq_false] at hany
      exact hany x hx (by simp [hxa])
    simp [this]

theorem countKey_mapSet_ne {m : List Account} (a : Account) {k : String}
    (hne : a.id ≠ k) : countKey (mapSet m a) k = countKey m k := by
  unfold mapSet
  split
  · exact countKey_replace m a k
  · rw [countKey_append_single]
    simp [hne]

/-! ### Helper lemmas: the record-building loop -/

/-- The record `processBalances` builds for account `b` with resolved balance
`bal` at height `h`. -/
def recOf (enc : Bytes → String) (h : Nat) (b : Bytes) (bal : Balance) : Account :=
  ⟨enc b, bal.free, bal.reserved, bal.free + bal.reserved, h⟩

theorem buildAccounts_cons_some (enc : Bytes → String) (h : Nat) (b : Bytes)
    (ids : List Bytes) (bal : Balance) (bs : List (Option Balance)) (m : List Account) :
    buildAccounts enc h (b :: ids) (some bal :: bs) m =
      buildAccounts enc h ids bs (mapSet m (recOf enc h b bal)) := rfl

theorem buildAccounts_cons_none (enc : Bytes → String) (h : Nat) (b : Bytes)
    (ids : List Bytes) (bs : List (Option Balance)) (m : List Account) :
    buildAccounts enc h (b :: ids) (none :: bs) m = buildAccounts enc h ids bs m := rfl

theorem buildAccounts_total (enc : Bytes → String) (h : Nat) :
    ∀ (ids : List Bytes) (bals : List (Option Balance)) (m : List Account),
      (∀ a ∈ m, a.total = a.free + a.reserved) →
      ∀ a ∈ buildAccounts enc h ids bals m, a.total = a.free + a.reserved := by
  intro ids
  induction ids with
  | nil => intro bals m hm; simpa [buildAccounts] using hm
  | cons b ids ih =>
    intro bals m hm
    match bals with
    | [] => exact ih [] m hm
    | none :: bs => exact ih bs m hm
    | some bal :: bs =>
      refine ih bs _ ?_
      intro a ha
      rcases mem_mapSet_cases ha with ha | rfl
      · exact hm a ha
      · rfl

theorem buildAccounts_persist (enc : Bytes → String) (h : Nat)
    (lk : Bytes → Option Balance) (r : Account) :
    ∀ (ids : List Bytes) (m : List Account), keyNodup m → r ∈ m → countKey m r.id = 1 →
      (∀ b ∈ ids, ∀ bal, lk b = some bal → enc b = r.id → recOf enc h b bal = r) →
      r ∈ buildAccounts enc h ids (ids.map lk) m ∧
        countKey (buildAccounts enc h ids (ids.map lk) m) r.id = 1 ∧
        keyNodup (buildAccounts enc h ids (ids.map lk) m) := by
  intro ids
  induction ids with
  | nil => intro m hnd hr hc _; exact ⟨hr, hc, hnd⟩
  | cons b ids ih =>
    intro m hnd hr hc hids
    simp only [List.map_cons]
    cases hlk : lk b with
    | none =>
      rw [buildAccounts_cons_none]
      exact ih m hnd hr hc (fun b' hb' => hids b' (List.mem_cons_of_mem _ hb'))
    | some bal =>
      rw [buildAccounts_cons_some]
      by_cases henc : enc b = r.id
      · have hrec : recOf enc h b bal = r :=
          hids b (List.mem_cons_self _ _) bal hlk henc
        rw [hrec]
        refine ih (mapSet m r) (keyNodup_mapSet r hnd) (mem_mapSet_self m r) ?_
          (fun b' hb' => hids b' (List.mem_cons_of_mem _ hb'))
        exact countKey_mapSet_self r (le_of_eq hc)
      · have hne : (recOf enc h b bal).id ≠ r.id := henc
        refine ih (mapSet m (recOf enc h b bal)) (keyNodup_mapSet _ hnd) ?_ ?_
          (fun b' hb' => hids b' (List.mem_cons_of_mem _ hb'))
        · exact mem_mapSet_of_ne _ hr (fun hx => absurd hx.symm hne)
        · rw [countKey_mapSet_ne _ hne]
          exact hc

theorem buildAccounts_inserted (enc : Bytes → String) (h : Nat)
    (lk : Bytes → Option Balance) (b₀ : Bytes) (bal₀ : Balance)
    (hres : lk b₀ = some bal₀) :
    ∀ (ids : List Bytes) (m : List Account), keyNodup m →
      (∀ b ∈ ids, enc b = enc b₀ → b = b₀) →
      b₀ ∈ ids →
      recOf enc h b₀ bal₀ ∈ buildAccounts enc h ids (ids.map lk) m ∧
        countKey (buildAccounts enc h ids (ids.map lk) m) (enc b₀) = 1 := by
  intro ids
  induction ids with
  | nil => intro m _ _ hmem; exact absurd hmem (List.not_mem_nil b₀)
  | cons b ids ih =>
    intro m hnd hids hmem
    simp only [List.map_cons]
    by_cases hb : b = b₀
    · subst hb
      rw [hres, buildAccounts_cons_some]
      have hcnt : countKey (mapSet m (recOf enc h b bal₀)) (enc b) = 1 :=
        countKey_mapSet_self _ (countKey_le_one_of_keyNodup hnd _)
      have hper := buildAccounts_persist enc h lk (recOf enc h b bal₀) ids
        (mapSet m (recOf enc h b bal₀)) (keyNodup_mapSet _ hnd)
        (mem_mapSet_self m _) hcnt ?_
      · exact ⟨hper.1, hper.2.1⟩
      · intro b' hb' bal' hlk' henc'
        have hb'b : b' = b := hids b' (List.mem_cons_of_mem _ hb') henc'
        subst hb'b
        rw [hres] at hlk'
        cases hlk'
        rfl
    · have hmem' : b₀ ∈ ids := by
        rcases List.mem_cons.mp hmem with h | h
        · exact absurd h.symm hb
        · exact h
      cases hlk : lk b with
      | none =>
        rw [buildAccounts_cons_none]
        exact ih m hnd (fun b' hb' => hids b' (List.mem_cons_of_mem _ hb')) hmem'
      | some bal =>
        rw [buildAccounts_cons_some]
        exact ih (mapSet m (recOf enc h b bal)) (keyNodup_mapSet _ hnd)
          (fun b' hb' => hids b' (List.mem_cons_of_mem _ hb')) hmem'

theorem buildAccounts_absent (enc : Bytes → String) (h : Nat)
    (lk : Bytes → Option Balance) (k : String) :
    ∀ (ids : List Bytes) (m : List Account),
      (∀ b ∈ ids, enc b = k → lk b = none) →
      countKey m k = 0 →
      countKey (buildAccounts enc h ids (ids.map lk) m) k = 0 := by
  intro ids
  induction ids with
  | nil => intro m _ hc; simpa [buildAccounts] using hc
  | cons b ids ih =>
    intro m hids hc
    simp only [List.map_cons]
    cases hlk : lk b with
    | none =>
      rw [buildAccounts_cons_none]
      exact ih m (fun b' hb' => hids b' (List.mem_cons_of_mem _ hb')) hc
    | some bal =>
      have hne : (recOf enc h b bal).id ≠ k := by
        intro hx
        rw [hids b (List.mem_cons_self _ _) hx] at hlk
        cases hlk
      rw [buildAccounts_cons_some]
      refine ih _ (fun b' hb' => hids b' (List.mem_cons_of_mem _ hb')) ?_
      rw [countKey_mapSet_ne _ hne]
      exact hc

/-! ### Helper lemmas: balance resolution -/

/-- The balance the resolution strategy reads from chain storage for one
account at one block: `System.Account`'s nested pair when that item exists,
else `Balances.Account`'s top-level pair when that item exists, else
nothing. -/
def resolvedBalance (ch : Chain) (blockHash : String) (b : Bytes) : Option Balance :=
  if SystemAccountStorage.isExists ch then
    (ch.systemAccount blockHash b).map fun a => ⟨a.data.free, a.data.reserved⟩
  else if BalancesAccountStorage.isExists ch then
    (ch.balancesAccount blockHash b).map fun a => ⟨a.free, a.reserved⟩
  else none

theorem getBalances_resolved (ch : Chain) (block : BlockHeader) (accs : List Bytes)
    (hsrc : SystemAccountStorage.isExists ch = true ∨
      BalancesAccountStorage.isExists ch = true) :
    (getBalances ch block accs).2 = some (accs.map (resolvedBalance ch block.hash)) := by
  unfold getBalances getSystemAccountBalances getBalancesAccountBalances resolvedBalance
  by_cases hsys : SystemAccountStorage.isExists ch = true
  · simp [hsys, List.map_map, Function.comp]
  · rcases hsrc with h | hbal
    · exact absurd h hsys
    · simp [hsys, hbal, List.map_map, Function.comp]

/-- The default block used for `ctx.blocks[ctx.blocks.length - 1]` (never
consulted: when the working set is non-empty the batch is non-empty). -/
def dfltBlock : Block := ⟨⟨0, ""⟩, []⟩

/-! ### Helper lemmas: collection -/

theorem collectItems_cons (fps : EventFingerprints) (i : Item) (rest : List Item)
    (acc : List String) :
    collectItems fps (i :: rest) acc =
      match collectItem fps acc i with
      | Except.error msg => Except.error msg
      | Except.ok acc2 => collectItems fps rest acc2 := rfl

theorem collectBatch_cons (fps : EventFingerprints) (b : Block) (rest : List Block)
    (acc : List String) :
    collectBatch fps (b :: rest) acc =
      match collectItems fps b.items acc with
      | Except.error msg => Except.error msg
      | Except.ok acc2 => collectBatch fps rest acc2 := rfl

theorem collectItems_append (fps : EventFingerprints) (xs ys : List Item) :
    ∀ acc, collectItems fps (xs ++ ys) acc =
      match collectItems fps xs acc with
      | Except.error msg => Except.error msg
      | Except.ok acc2 => collectItems fps ys acc2 := by
  induction xs with
  | nil => intro acc; rfl
  | cons i xs ih =>
    intro acc
    rw [List.cons_append, collectItems_cons, collectItems_cons]
    cases h : collectItem fps acc i with
    | error msg => rfl
    | ok acc2 => exact ih acc2

theorem processBalances_of_collect_error (cfg : Config) (blocks : List Block) (msg : String)
    (h : collectBatch cfg.fps blocks [] = .error msg) :
    processBalances cfg blocks = .error msg := by
  unfold processBalances
  rw [h]

/-- One-step unfolding of the batch handler after a successful collection
phase. -/
theorem processBalances_ok_run (cfg : Config) (blocks : List Block) (hexIds : List String)
    (hcol : collectBatch cfg.fps blocks [] = Except.ok hexIds) :
    processBalances cfg blocks =
      (if hexIds.isEmpty then Except.ok emptyEffects
      else
        let block := blocks.getLastD ⟨⟨0, ""⟩, []⟩
        let ids := hexIds.map decodeHex
        let qr := getBalances cfg.chain block.header ids
        match qr.2 with
        | none => Except.ok ⟨qr.1, [], [], ["No balances"], []⟩
        | some balances =>
          let accounts := buildAccounts cfg.encodeId block.header.height ids balances []
          Except.ok ⟨qr.1, accounts, [], [], ["updated: " ++ toString accounts.length]⟩) := by
  unfold processBalances
  rw [hcol]

/-! ### Helper lemmas: event amounts are never consulted -/

def stripAmountItem : Item → Item
  | .call c => .call c
  | .event e => .event ⟨e.name, e.fingerprint, e.accounts, 0⟩

def stripAmountBlock (b : Block) : Block :=
  ⟨b.header, b.items.map stripAmountItem⟩

theorem collectItem_strip (fps : EventFingerprints) (acc : List String) (i : Item) :
    collectItem fps acc (stripAmountItem i) = collectItem fps acc i := by
  cases i with
  | call c => rfl
  | event e => rfl

theorem collectItems_strip (fps : EventFingerprints) (items : List Item) :
    ∀ acc, collectItems fps (items.map stripAmountItem) acc = collectItems fps items acc := by
  induction items with
  | nil => intro acc; rfl
  | cons i items ih =>
    intro acc
    rw [List.map_cons, collectItems_cons, collectItems_cons, collectItem_strip]
    cases h : collectItem fps acc i with
    | error msg => rfl
    | ok acc2 => exact ih acc2

theorem collectBatch_strip (fps : EventFingerprints) (blocks : List Block) :
    ∀ acc, collectBatch fps (blocks.map stripAmountBlock) acc = collectBatch fps blocks acc := by
  induction blocks with
  | nil => intro acc; rfl
  | cons b blocks ih =>
    intro acc
    rw [List.map_cons, collectBatch_cons, collectBatch_cons]
    have hitems : (stripAmountBlock b).items = b.items.map stripAmountItem := rfl
    rw [hitems, collectItems_strip]
    cases h : collectItems fps b.items acc with
    | error msg => rfl
    | ok acc2 => exact ih acc2

theorem getLastD_map_strip (blocks : List Block) :
    ∀ d : Block, (blocks.map stripAmountBlock).getLastD (stripAmountBlock d) =
      stripAmountBlock (blocks.getLastD d) := by
  induction blocks with
  | nil => intro d; rfl
  | cons b blocks ih =>
    intro d
    rw [List.map_cons, List.getLastD_cons, List.getLastD_cons]
    exact ih b

theorem processBalances_strip (cfg : Config) (blocks : List Block) :
    processBalances cfg (blocks.map stripAmountBlock) = processBalances cfg blocks := by
  cases hcol : collectBatch cfg.fps blocks [] with
  | error msg =>
    rw [processBalances_of_collect_error cfg _ msg (by rw [collectBatch_strip]; exact hcol),
      processBalances_of_collect_error cfg blocks msg hcol]
  | ok hexIds =>
    rw [processBalances_ok_run cfg _ hexIds (by rw [collectBatch_strip]; exact hcol),
      processBalances_ok_run cfg blocks hexIds hcol]
    by_cases hemp : hexIds.isEmpty
    · rw [if_pos hemp, if_pos hemp]
    · have hlast : (blocks.map stripAmountBlock).getLastD ⟨⟨0, ""⟩, []⟩ =
          stripAmountBlock (blocks.getLastD ⟨⟨0, ""⟩, []⟩) := by
        have h := getLastD_map_strip blocks ⟨⟨0, ""⟩, []⟩
        simpa [stripAmountBlock] using h
      rw [if_neg hemp, if_neg hemp, hlast]
      rfl

/-! ### Master characterization of a successfully collected batch -/

theorem processBalances_ok_spec (cfg : Config) (blocks : List Block) (hexIds : List String)
    (hcol : collectBatch cfg.fps blocks [] = Except.ok hexIds)
    (hinj : ∀ a ∈ hexIds.map decodeHex, ∀ b ∈ hexIds.map decodeHex,
      cfg.encodeId a = cfg.encodeId b → a = b)
    (hsrc : SystemAccountStorage.isExists cfg.chain = true ∨
      BalancesAccountStorage.isExists cfg.chain = true) :
    ∃ eff, processBalances cfg blocks = Except.ok eff ∧ eff.deleted = [] ∧
      ∀ hx ∈ hexIds,
        (∀ bal,
          resolvedBalance cfg.chain (blocks.getLastD ⟨⟨0, ""⟩, []⟩).header.hash
              (decodeHex hx) = some bal →
            recOf cfg.encodeId (blocks.getLastD ⟨⟨0, ""⟩, []⟩).header.height
                (decodeHex hx) bal ∈ eff.saved ∧
            countKey eff.saved (cfg.encodeId (decodeHex hx)) = 1) ∧
        (resolvedBalance cfg.chain (blocks.getLastD ⟨⟨0, ""⟩, []⟩).header.hash
            (decodeHex hx) = none →
          countKey eff.saved (cfg.encodeId (decodeHex hx)) = 0) := by
  rw [processBalances_ok_run cfg blocks hexIds hcol]
  by_cases hemp : hexIds.isEmpty
  · refine ⟨emptyEffects, by rw [if_pos hemp], rfl, ?_⟩
    intro hx hmem
    rw [List.isEmpty_iff] at hemp
    subst hemp
    exact absurd hmem (List.not_mem_nil hx)
  · rw [if_neg hemp]
    set blk := blocks.getLastD ⟨⟨0, ""⟩, []⟩ with hblk
    set lk := resolvedBalance cfg.chain blk.header.hash with hlk
    have hres : (getBalances cfg.chain blk.header (hexIds.map decodeHex)).2 =
        some ((hexIds.map decodeHex).map lk) :=
      getBalances_resolved cfg.chain blk.header (hexIds.map decodeHex) hsrc
    simp only [hres]
    refine ⟨_, rfl, rfl, ?_⟩
    intro hx hmem
    have hbmem : decodeHex hx ∈ hexIds.map decodeHex :=
      List.mem_map.mpr ⟨hx, hmem, rfl⟩
    constructor
    · intro bal hbal
      have h := buildAccounts_inserted cfg.encodeId blk.header.height lk (decodeHex hx) bal
        hbal (hexIds.map decodeHex) [] keyNodup_nil
        (fun b hb hee => hinj b hb (decodeHex hx) hbmem hee) hbmem
      exact ⟨h.1, h.2⟩
    · intro hnone
      refine buildAccounts_absent cfg.encodeId blk.header.height lk
        (cfg.encodeId (decodeHex hx)) (hexIds.map decodeHex) [] ?_ (by simp [countKey])
      intro b hb henc
      rw [hinj b hb (decodeHex hx) hbmem henc]
      exact hnone

/-! ### Helper lemmas: items that contribute nothing -/

/-- The nine event names the processor subscribes to and dispatches on, in
switch order. -/
def subscribedEventNames : List String :=
  ["Balances.BalanceSet", "Balances.Endowed", "Balances.Deposit", "Balances.Reserved",
   "Balances.Unreserved", "Balances.Withdraw", "Balances.Slashed", "Balances.Transfer",
   "Balances.ReserveRepatriated"]

theorem processBalancesEventItem_unmatched (fps : EventFingerprints) (e : Event)
    (acc : List String) (h : e.name ∉ subscribedEventNames) :
    processBalancesEventItem fps e acc = Except.ok acc := by
  simp only [subscribedEventNames, List.mem_cons, List.not_mem_nil, or_false, not_or] at h
  obtain ⟨h1, h2, h3, h4, h5, h6, h7, h8, h9⟩ := h
  unfold processBalancesEventItem
  rw [if_neg h1, if_neg h2, if_neg h3, if_neg h4, if_neg h5, if_neg h6, if_neg h7,
    if_neg h8, if_neg h9]

/-- An item that adds no account id to the working set: a call that is not a
directly-signed top-level call, or an event whose name is not subscribed. -/
def itemContributesNothing : Item → Prop
  | .call c => c.parent ≠ none ∨ getOriginAccountId c.origin = none
  | .event e => e.name ∉ subscribedEventNames

theorem collectItem_no_contrib (fps : EventFingerprints) (acc : List String) (i : Item)
    (h : itemContributesNothing i) : collectItem fps acc i = Except.ok acc := by
  cases i with
  | call c =>
    simp only [itemContributesNothing] at h
    show Except.ok (processBalancesCallItem c acc) = Except.ok acc
    unfold processBalancesCallItem
    rcases h with h | h
    · rw [if_pos h]
    · by_cases hp : c.parent ≠ none
      · rw [if_pos hp]
      · rw [if_neg hp, h]
  | event e =>
    simp only [itemContributesNothing] at h
    exact processBalancesEventItem_unmatched fps e acc h

theorem collectItems_no_contrib (fps : EventFingerprints) (items : List Item)
    (h : ∀ i ∈ items, itemContributesNothing i) :
    ∀ acc, collectItems fps items acc = Except.ok acc := by
  induction items with
  | nil => intro acc; rfl
  | cons i items ih =>
    intro acc
    rw [collectItems_cons, collectItem_no_contrib fps acc i (h i (List.mem_cons_self _ _))]
    exact ih (fun j hj => h j (List.mem_cons_of_mem _ hj)) acc

theorem collectBatch_no_contrib (fps : EventFingerprints) (blocks : List Block)
    (h : ∀ blk ∈ blocks, ∀ i ∈ blk.items, itemContributesNothing i) :
    ∀ acc, collectBatch fps blocks acc = Except.ok acc := by
  induction blocks with
  | nil => intro acc; rfl
  | cons b blocks ih =>
    intro acc
    rw [collectBatch_cons, collectItems_no_contrib fps b.items (h b (List.mem_cons_self _ _))]
    exact ih (fun blk hblk => h blk (List.mem_cons_of_mem _ hblk)) acc

/-! ## Claim theorems -/

/-- Claim C2: every `Account` record the pipeline persists satisfies
`total = free + reserved` as exact arbitrary-precision integer addition;
`total` is recomputed from the resolved `free`/`reserved` pair on every
write and never taken from any input. -/
theorem account_total_eq_free_add_reserved (cfg : Config) (blocks : List Block)
    (eff : BatchEffects) (h : processBalances cfg blocks = Except.ok eff) :
    ∀ a ∈ eff.saved, a.total = a.free + a.reserved := by
  cases hcol : collectBatch cfg.fps blocks [] with
  | error msg =>
    rw [processBalances_of_collect_error cfg blocks msg hcol] at h
    cases h
  | ok hexIds =>
    rw [processBalances_ok_run cfg blocks hexIds hcol] at h
    by_cases hemp : hexIds.isEmpty
    · rw [if_pos hemp] at h
      cases h
      intro a ha
      exact absurd ha (List.not_mem_nil a)
    · rw [if_neg hemp] at h
      simp only at h
      cases hq : (getBalances cfg.chain (blocks.getLastD ⟨⟨0, ""⟩, []⟩).header
          (List.map decodeHex hexIds)).2 with
      | none =>
        rw [hq] at h
        cases h
        intro a ha
        exact absurd ha (List.not_mem_nil a)
      | some balances =>
        rw [hq] at h
        cases h
        exact buildAccounts_total cfg.encodeId _ _ balances []
          (fun a ha => absurd ha (List.not_mem_nil a))

/-- Claim C5: a batch in which no item contributes an account id to the
working set (no subscribed balance event and no directly-signed top-level
call) makes `processBalances` return without issuing any storage query and
without issuing any persistence write. -/
theorem processBalances_empty_working_set_noop (cfg : Config) (blocks : List Block)
    (hno : ∀ blk ∈ blocks, ∀ i ∈ blk.items, itemContributesNothing i) :
    processBalances cfg blocks = Except.ok emptyEffects ∧
      emptyEffects.storageQueries = [] ∧ emptyEffects.saved = [] := by
  refine ⟨?_, rfl, rfl⟩
  have hcol : collectBatch cfg.fps blocks [] = Except.ok [] :=
    collectBatch_no_contrib cfg.fps blocks hno []
  rw [processBalances_ok_run cfg blocks [] hcol]
  rfl

/-- Claim C7: a call item adds its signer's hex account id to the working
set exactly when it is top-level (no parent call) and its origin is a
directly-signed `system/Signed` origin; any other call leaves the working
set unchanged and raises no error. -/
theorem processBalancesCallItem_signed_top_level (c : Call) (acc : List String) :
    processBalancesCallItem c acc =
      (if c.parent = none ∧ c.origin.kind = "system" ∧ c.origin.valueKind = "Signed"
        then setAdd acc c.origin.value else acc) ∧
    ∀ x, x ∈ processBalancesCallItem c acc ↔
      x ∈ acc ∨ (c.parent = none ∧ c.origin.kind = "system" ∧
        c.origin.valueKind = "Signed" ∧ x = c.origin.value) := by
  have heq : processBalancesCallItem c acc =
      (if c.parent = none ∧ c.origin.kind = "system" ∧ c.origin.valueKind = "Signed"
        then setAdd acc c.origin.value else acc) := by
    unfold processBalancesCallItem getOriginAccountId
    by_cases hp : c.parent = none
    · rw [if_neg (by simp [hp])]
      by_cases hk : c.origin.kind = "system" ∧ c.origin.valueKind = "Signed"
      · rw [if_pos hk, if_pos ⟨hp, hk⟩]
      · rw [if_neg hk, if_neg (by tauto)]
    · rw [if_pos (by simp [hp]), if_neg (by tauto)]
  refine ⟨heq, ?_⟩
  intro x
  rw [heq]
  by_cases hc : c.parent = none ∧ c.origin.kind = "system" ∧ c.origin.valueKind = "Signed"
  · rw [if_pos hc, mem_setAdd]
    constructor
    · rintro (hx | rfl)
      · exact Or.inl hx
      · exact Or.inr ⟨hc.1, hc.2.1, hc.2.2, rfl⟩
    · rintro (hx | ⟨_, _, _, rfl⟩)
      · exact Or.inl hx
      · exact Or.inr rfl
  · rw [if_neg hc]
    constructor
    · exact Or.inl
    · rintro (hx | ⟨h1, h2, h3, _⟩)
      · exact hx
      · exact absurd ⟨h1, h2, h3⟩ hc

/-- Claim C10: an event item whose name is none of the nine subscribed
Balances event names leaves the working set unchanged and raises no error —
the dispatch has no default arm, so unrecognized names are silently
ignored rather than treated as the unknown-version condition. -/
theorem processBalancesEventItem_unrecognized_noop (fps : EventFingerprints) (e : Event)
    (acc : List String) (h : e.name ∉ subscribedEventNames) :
    processBalancesEventItem fps e acc = Except.ok acc :=
  processBalancesEventItem_unmatched fps e acc h

/-- Claim C1: for every delivered batch whose collection succeeds and whose
balance resolution has a source, each collected account id with a resolved
balance gets exactly one persisted record, whose `free`/`reserved` equal the
pair read from chain storage as of the batch's last block and whose
`updatedAt` is that block's height; and the numeric amounts carried in the
batch's events are never read (stripping every event's amount leaves the
batch result unchanged). -/
theorem processBalances_persists_chain_state (cfg : Config) (blocks : List Block)
    (hexIds : List String)
    (hcol : collectBatch cfg.fps blocks [] = Except.ok hexIds)
    (hinj : ∀ a ∈ hexIds.map decodeHex, ∀ b ∈ hexIds.map decodeHex,
      cfg.encodeId a = cfg.encodeId b → a = b)
    (hsrc : SystemAccountStorage.isExists cfg.chain = true ∨
      BalancesAccountStorage.isExists cfg.chain = true) :
    (∃ eff, processBalances cfg blocks = Except.ok eff ∧
      ∀ hx ∈ hexIds, ∀ bal,
        resolvedBalance cfg.chain (blocks.getLastD ⟨⟨0, ""⟩, []⟩).header.hash
            (decodeHex hx) = some bal →
          countKey eff.saved (cfg.encodeId (decodeHex hx)) = 1 ∧
          (⟨cfg.encodeId (decodeHex hx), bal.free, bal.reserved,
            bal.free + bal.reserved,
            (blocks.getLastD ⟨⟨0, ""⟩, []⟩).header.height⟩ : Account) ∈ eff.saved) ∧
    processBalances cfg (blocks.map stripAmountBlock) = processBalances cfg blocks := by
  refine ⟨?_, processBalances_strip cfg blocks⟩
  obtain ⟨eff, heff, _, hspec⟩ := processBalances_ok_spec cfg blocks hexIds hcol hinj hsrc
  refine ⟨eff, heff, ?_⟩
  intro hx hmem bal hbal
  obtain ⟨hres, _⟩ := hspec hx hmem
  have h := hres bal hbal
  exact ⟨h.2, h.1⟩

/-- Claim C6: under a successful resolution, an account key whose balance is
absent from the batched storage read is silently skipped — no record with
its encoded address is written, nothing is ever deleted, no error is raised,
and the upserts for the other resolved accounts are unaffected. -/
theorem unresolved_account_silently_skipped (cfg : Config) (blocks : List Block)
    (hexIds : List String)
    (hcol : collectBatch cfg.fps blocks [] = Except.ok hexIds)
    (hinj : ∀ a ∈ hexIds.map decodeHex, ∀ b ∈ hexIds.map decodeHex,
      cfg.encodeId a = cfg.encodeId b → a = b)
    (hsrc : SystemAccountStorage.isExists cfg.chain = true ∨
      BalancesAccountStorage.isExists cfg.chain = true) :
    ∃ eff, processBalances cfg blocks = Except.ok eff ∧ eff.deleted = [] ∧
      ∀ hx ∈ hexIds,
        (resolvedBalance cfg.chain (blocks.getLastD ⟨⟨0, ""⟩, []⟩).header.hash
            (decodeHex hx) = none →
          countKey eff.saved (cfg.encodeId (decodeHex hx)) = 0) ∧
        (∀ bal,
          resolvedBalance cfg.chain (blocks.getLastD ⟨⟨0, ""⟩, []⟩).header.hash
              (decodeHex hx) = some bal →
            countKey eff.saved (cfg.encodeId (decodeHex hx)) = 1) := by
  obtain ⟨eff, heff, hdel, hspec⟩ := processBalances_ok_spec cfg blocks hexIds hcol hinj hsrc
  refine ⟨eff, heff, hdel, ?_⟩
  intro hx hmem
  obtain ⟨hres, habs⟩ := hspec hx hmem
  exact ⟨habs, fun bal hbal => (hres bal hbal).2⟩

/-- Claim C3: `getBalances` resolves via the `System.Account` storage source
whenever that item exists (its values taken from the nested
`data.free`/`data.reserved`, `Balances.Account` never queried), consults
`Balances.Account` only when `System.Account` is absent, and when neither
exists returns no result — in which case the batch produces no persistence
writes, logs a warning, and finishes without error. -/
theorem getBalances_source_priority (ch : Chain) (block : BlockHeader) (accs : List Bytes) :
    (getBalances ch block accs =
      if SystemAccountStorage.isExists ch then
        ([⟨block.hash, "System", "Account", accs⟩],
          some ((accs.map (ch.systemAccount block.hash)).map fun d =>
            d.map fun a => ⟨a.data.free, a.data.reserved⟩))
      else if BalancesAccountStorage.isExists ch then
        ([⟨block.hash, "Balances", "Account", accs⟩],
          some ((accs.map (ch.balancesAccount block.hash)).map fun d =>
            d.map fun a => ⟨a.free, a.reserved⟩))
      else ([], none)) ∧
    (∀ cfg blocks hexIds, cfg.chain = ch →
      SystemAccountStorage.isExists ch = false →
      BalancesAccountStorage.isExists ch = false →
      collectBatch cfg.fps blocks [] = Except.ok hexIds → hexIds ≠ [] →
      processBalances cfg blocks = Except.ok ⟨[], [], [], ["No balances"], []⟩) := by
  constructor
  · unfold getBalances getSystemAccountBalances getBalancesAccountBalances
    by_cases hsys : SystemAccountStorage.isExists ch
    · rw [if_pos hsys, if_pos hsys]
    · rw [if_neg hsys, if_neg hsys]
      by_cases hbal : BalancesAccountStorage.isExists ch
      · rw [if_pos hbal]
        rfl
      · rw [if_neg hbal]
        rfl
  · intro cfg blocks hexIds hch hsys hbal hcol hne
    rw [processBalances_ok_run cfg blocks hexIds hcol]
    rw [if_neg (by simpa [List.isEmpty_iff] using hne)]
    have hq : getBalances cfg.chain (blocks.getLastD ⟨⟨0, ""⟩, []⟩).header
        (List.map decodeHex hexIds) = ([], none) := by
      subst hch
      unfold getBalances getSystemAccountBalances getBalancesAccountBalances
      rw [if_neg (by simp [hsys]), if_neg (by simp [hbal])]
      rfl
    simp only [hq]

/-- Claim C4: a `Balances.Transfer` event whose declared fingerprint matches
none of the literal fingerprints known to its decoder makes
`getTransferAccounts` raise the unknown-runtime-version error carrying the
decoder's type name, and the error propagates uncaught out of the batch
handler regardless of the surrounding batch items (the batch aborts with
that error and performs no work). -/
theorem getTransferAccounts_unknown_version (fps : EventFingerprints) (e : Event)
    (hname : e.name = "Balances.Transfer")
    (h1 : e.fingerprint ≠ fps.transferV1020)
    (h2 : e.fingerprint ≠ fps.transferV1050)
    (h3 : e.fingerprint ≠ fps.transferV9130) :
    getTransferAccounts fps e =
      Except.error (UnknownVersionError "BalancesTransferEvent") ∧
    ∀ (cfg : Config) (hdr : BlockHeader) (pre post : List Item) (acc : List String),
      cfg.fps = fps →
      collectItems fps pre [] = Except.ok acc →
      processBalances cfg [⟨hdr, pre ++ Item.event e :: post⟩] =
        Except.error (UnknownVersionError "BalancesTransferEvent") := by
  have hget : getTransferAccounts fps e =
      Except.error (UnknownVersionError "BalancesTransferEvent") := by
    unfold getTransferAccounts
    rw [if_neg h1, if_neg h2, if_neg h3]
  refine ⟨hget, ?_⟩
  intro cfg hdr pre post acc hcfg hpre
  have hev : ∀ acc2 : List String, processBalancesEventItem fps e acc2 =
      Except.error (UnknownVersionError "BalancesTransferEvent") := by
    intro acc2
    unfold processBalancesEventItem
    rw [if_neg (by rw [hname]; decide), if_neg (by rw [hname]; decide),
      if_neg (by rw [hname]; decide), if_neg (by rw [hname]; decide),
      if_neg (by rw [hname]; decide), if_neg (by rw [hname]; decide),
      if_neg (by rw [hname]; decide), if_pos hname, hget]
    rfl
  have hitems : collectItems fps (pre ++ Item.event e :: post) [] =
      Except.error (UnknownVersionError "BalancesTransferEvent") := by
    rw [collectItems_append fps pre (Item.event e :: post) [], hpre]
    show collectItems fps (Item.event e :: post) acc = _
    rw [collectItems_cons]
    show (match processBalancesEventItem fps e acc with
      | Except.error msg => Except.error msg
      | Except.ok acc2 => collectItems fps post acc2) = _
    rw [hev acc]
  apply processBalances_of_collect_error
  rw [hcfg, collectBatch_cons]
  show (match collectItems fps (pre ++ Item.event e :: post) [] with
    | Except.error msg => Except.error msg
    | Except.ok acc2 => collectBatch fps [] acc2) = _
  rw [hitems]

/-- Claim C8: the literal `System.Account` fingerprints of
`SystemAccountStorage` are pairwise distinct, so for any chain runtime
context at most one of the version predicates `isV1050`, `isV2025`,
`isV2028`, `isV2030` is true; and when the context reports a fingerprint
equal to one of the literals, exactly the corresponding predicate is true
and all the others are false. -/
theorem systemAccount_version_predicates_exclusive (ch : Chain) :
    (systemAccountHashV1050 ≠ systemAccountHashV2025 ∧
     systemAccountHashV1050 ≠ systemAccountHashV2028 ∧
     systemAccountHashV1050 ≠ systemAccountHashV2030 ∧
     systemAccountHashV2025 ≠ systemAccountHashV2028 ∧
     systemAccountHashV2025 ≠ systemAccountHashV2030 ∧
     systemAccountHashV2028 ≠ systemAccountHashV2030) ∧
    (SystemAccountStorage.isV1050 ch = true →
      SystemAccountStorage.isV2025 ch = false ∧ SystemAccountStorage.isV2028 ch = false ∧
        SystemAccountStorage.isV2030 ch = false) ∧
    (SystemAccountStorage.isV2025 ch = true →
      SystemAccountStorage.isV1050 ch = false ∧ SystemAccountStorage.isV2028 ch = false ∧
        SystemAccountStorage.isV2030 ch = false) ∧
    (SystemAccountStorage.isV2028 ch = true →
      SystemAccountStorage.isV1050 ch = false ∧ SystemAccountStorage.isV2025 ch = false ∧
        SystemAccountStorage.isV2030 ch = false) ∧
    (SystemAccountStorage.isV2030 ch = true →
      SystemAccountStorage.isV1050 ch = false ∧ SystemAccountStorage.isV2025 ch = false ∧
        SystemAccountStorage.isV2028 ch = false) ∧
    (ch.storageItemTypeHash "System" "Account" = some systemAccountHashV1050 →
      SystemAccountStorage.isV1050 ch = true) ∧
    (ch.storageItemTypeHash "System" "Account" = some systemAccountHashV2025 →
      SystemAccountStorage.isV2025 ch = true) ∧
    (ch.storageItemTypeHash "System" "Account" = some systemAccountHashV2028 →
      SystemAccountStorage.isV2028 ch = true) ∧
    (ch.storageItemTypeHash "System" "Account" = some systemAccountHashV2030 →
      SystemAccountStorage.isV2030 ch = true) := by
  have hd12 : systemAccountHashV1050 ≠ systemAccountHashV2025 := by decide
  have hd13 : systemAccountHashV1050 ≠ systemAccountHashV2028 := by decide
  have hd14 : systemAccountHashV1050 ≠ systemAccountHashV2030 := by decide
  have hd23 : systemAccountHashV2025 ≠ systemAccountHashV2028 := by decide
  have hd24 : systemAccountHashV2025 ≠ systemAccountHashV2030 := by decide
  have hd34 : systemAccountHashV2028 ≠ systemAccountHashV2030 := by decide
  have hof : ∀ s t : String, s ≠ t →
      ch.storageItemTypeHash "System" "Account" = some s →
      (ch.storageItemTypeHash "System" "Account" == some t) = false := by
    intro s t hst ho
    rw [ho]
    simp [hst]
  refine ⟨⟨hd12, hd13, hd14, hd23, hd24, hd34⟩, ?_, ?_, ?_, ?_, ?_, ?_, ?_, ?_⟩
  · intro h
    rw [SystemAccountStorage.isV1050, beq_iff_eq] at h
    exact ⟨hof _ _ hd12 h, hof _ _ hd13 h, hof _ _ hd14 h⟩
  · intro h
    rw [SystemAccountStorage.isV2025, beq_iff_eq] at h
    exact ⟨hof _ _ hd12.symm h, hof _ _ hd23 h, hof _ _ hd24 h⟩
  · intro h
    rw [SystemAccountStorage.isV2028, beq_iff_eq] at h
    exact ⟨hof _ _ hd13.symm h, hof _ _ hd23.symm h, hof _ _ hd34 h⟩
  · intro h
    rw [SystemAccountStorage.isV2030, beq_iff_eq] at h
    exact ⟨hof _ _ hd14.symm h, hof _ _ hd24.symm h, hof _ _ hd34.symm h⟩
  · intro h
    rw [SystemAccountStorage.isV1050, beq_iff_eq]
    exact h
  · intro h
    rw [SystemAccountStorage.isV2025, beq_iff_eq]
    exact h
  · intro h
    rw [SystemAccountStorage.isV2028, beq_iff_eq]
    exact h
  · intro h
    rw [SystemAccountStorage.isV2030, beq_iff_eq]
    exact h

/-- The `account` table after both forward migrations: the `Init` columns
plus the nullable `updated_at integer` column. -/
def accountTableFinal : Table :=
  ⟨"account",
    [⟨"id", "character varying", true⟩,
     ⟨"free", "numeric", true⟩,
     ⟨"reserved", "numeric", true⟩,
     ⟨"total", "numeric", true⟩,
     ⟨"updated_at", "integer", false⟩],
    ["id"]⟩

/-- Claim C9: applying `Init` then `AddUpdatedAt` and then reversing
`AddUpdatedAt` then `Init` is the identity on any schema that has no
`account`/`snapshot` table (each script's down is the exact inverse of its
up), so the round trip leaves no such tables; and applying both forward
yields exactly one `account` table whose column set is exactly
`{id, free, reserved, total, updated_at}` with `updated_at` nullable and
every other column NOT NULL. -/
theorem migrations_round_trip (db : Database)
    (hacc : ∀ t ∈ db, t.name ≠ "account")
    (hsnap : ∀ t ∈ db, t.name ≠ "snapshot") :
    (Init1655830554126.down
        (AddUpdatedAt1655843090639.down
          (AddUpdatedAt1655843090639.up (Init1655830554126.up db))) = db ∧
      ∀ t ∈ Init1655830554126.down
          (AddUpdatedAt1655843090639.down
            (AddUpdatedAt1655843090639.up (Init1655830554126.up db))),
        t.name ≠ "account" ∧ t.name ≠ "snapshot") ∧
    (AddUpdatedAt1655843090639.up (Init1655830554126.up db)).filter
        (fun t => t.name == "account") = [accountTableFinal] ∧
    accountTableFinal.columns.map (fun c => (c.name, c.notNull)) =
      [("id", true), ("free", true), ("reserved", true), ("total", true),
       ("updated_at", false)] := by
  have hdb1 : db.filter (fun t => t.name ≠ "account") = db := by
    rw [List.filter_eq_self]
    intro t ht
    simpa using hacc t ht
  have hdb2 : db.filter (fun t => t.name ≠ "snapshot") = db := by
    rw [List.filter_eq_self]
    intro t ht
    simpa using hsnap t ht
  have hup : Init1655830554126.up db = db ++ [accountTableInit, snapshotTableInit] := by
    unfold Init1655830554126.up createTable
    rw [List.append_assoc]
    rfl
  have haddup : AddUpdatedAt1655843090639.up (Init1655830554126.up db) =
      db ++ [accountTableFinal, snapshotTableInit] := by
    rw [hup]
    unfold AddUpdatedAt1655843090639.up addColumn
    rw [List.map_append]
    have hdbmap : db.map (fun t => if t.name = "account"
        then { t with columns := t.columns ++ [⟨"updated_at", "integer", false⟩] } else t)
        = db := by
      calc db.map (fun t => if t.name = "account"
            then { t with columns := t.columns ++ [⟨"updated_at", "integer", false⟩] }
            else t)
          = db.map id := by
            apply List.map_congr_left
            intro t ht
            rw [if_neg (hacc t ht)]
            rfl
        _ = db := List.map_id db
    rw [hdbmap]
    rfl
  have hadddown : AddUpdatedAt1655843090639.down
      (AddUpdatedAt1655843090639.up (Init1655830554126.up db)) =
      db ++ [accountTableInit, snapshotTableInit] := by
    rw [haddup]
    unfold AddUpdatedAt1655843090639.down dropColumn
    rw [List.map_append]
    have hdbmap : db.map (fun t => if t.name = "account"
        then { t with columns := t.columns.filter (fun c => c.name ≠ "updated_at") }
        else t) = db := by
      calc db.map (fun t => if t.name = "account"
            then { t with columns := t.columns.filter (fun c => c.name ≠ "updated_at") }
            else t)
          = db.map id := by
            apply List.map_congr_left
            intro t ht
            rw [if_neg (hacc t ht)]
            rfl
        _ = db := List.map_id db
    rw [hdbmap]
    rfl
  have hdown : Init1655830554126.down (db ++ [accountTableInit, snapshotTableInit]) = db := by
    unfold Init1655830554126.down dropTable
    have hinner : (db ++ [accountTableInit, snapshotTableInit]).filter
        (fun t => t.name ≠ "account") = db ++ [snapshotTableInit] := by
      rw [List.filter_append, hdb1]
      rfl
    rw [hinner, List.filter_append, hdb2]
    rw [show List.filter (fun t => decide (t.name ≠ "snapshot")) [snapshotTableInit]
      = ([] : List Table) from rfl]
    exact List.append_nil db
  have hround : Init1655830554126.down
      (AddUpdatedAt1655843090639.down
        (AddUpdatedAt1655843090639.up (Init1655830554126.up db))) = db := by
    rw [hadddown, hdown]
  refine ⟨⟨hround, ?_⟩, ?_, rfl⟩
  · rw [hround]
    exact fun t ht => ⟨hacc t ht, hsnap t ht⟩
  · rw [haddup, List.filter_append]
    have hdb : db.filter (fun t => t.name == "account") = [] := by
      rw [List.filter_eq_nil_iff]
      intro t ht
      simpa using hacc t ht
    rw [hdb]
    rfl

/-! ## Concrete instances for the witnesses -/

/-- A concrete fingerprint table with pairwise distinct literals. -/
def fpsEx : EventFingerprints :=
  ⟨"bs1031", "bs9130", "tr1020", "tr1050", "tr9130", "en1050", "en9130", "de1032", "de9130",
   "re2008", "re9130", "un2008", "un9130", "wi9122", "wi9130", "sl9122", "sl9130",
   "rr2008", "rr9130"⟩

/-- A chain whose `System.Account` storage exists (at the V1050 fingerprint)
and holds balances for accounts `[1]` and `[2]` only. -/
def chainEx : Chain :=
  ⟨fun p i => if p = "System" ∧ i = "Account" then some systemAccountHashV1050 else none,
   fun _ b => if b = [1] then some ⟨0, ⟨10, 0⟩⟩ else if b = [2] then some ⟨0, ⟨5, 2⟩⟩ else none,
   fun _ _ => none⟩

def cfgEx : Config := ⟨chainEx, fpsEx, toHex⟩

/-- A chain under which neither balance storage item exists. -/
def chainNoneEx : Chain := ⟨fun _ _ => none, fun _ _ => none, fun _ _ => none⟩

def cfgNoneEx : Config := ⟨chainNoneEx, fpsEx, toHex⟩

def transferEx : Event := ⟨"Balances.Transfer", "tr9130", [[1], [2]], 7⟩

def blockEx : Block := ⟨⟨1400500, "0xabc"⟩, [Item.event transferEx]⟩

def endowedEx : Event := ⟨"Balances.Endowed", "en9130", [[3]], 0⟩

def blockC6Ex : Block := ⟨⟨1400500, "0xabc"⟩, [Item.event transferEx, Item.event endowedEx]⟩

def badTransferEx : Event := ⟨"Balances.Transfer", "zz", [[1], [2]], 7⟩

def unsignedCallEx : Call := ⟨none, ⟨"system", "None", ""⟩⟩

def signedCallEx : Call := ⟨none, ⟨"system", "Signed", "0x01"⟩⟩

def otherEventEx : Event := ⟨"System.ExtrinsicSuccess", "xx", [], 0⟩

def noopBlockEx : Block := ⟨⟨1400001, "0xdef"⟩, [Item.call unsignedCallEx, Item.event otherEventEx]⟩

/-! ## Witnesses -/

/-- Witness for C1 at a concrete one-transfer batch. -/
theorem processBalances_persists_chain_state_witness :
    (∃ eff, processBalances cfgEx [blockEx] = Except.ok eff ∧
      ∀ hx ∈ ["0x01", "0x02"], ∀ bal,
        resolvedBalance cfgEx.chain ([blockEx].getLastD ⟨⟨0, ""⟩, []⟩).header.hash
            (decodeHex hx) = some bal →
          countKey eff.saved (cfgEx.encodeId (decodeHex hx)) = 1 ∧
          (⟨cfgEx.encodeId (decodeHex hx), bal.free, bal.reserved,
            bal.free + bal.reserved,
            ([blockEx].getLastD ⟨⟨0, ""⟩, []⟩).header.height⟩ : Account) ∈ eff.saved) ∧
    processBalances cfgEx ([blockEx].map stripAmountBlock) = processBalances cfgEx [blockEx] :=
  processBalances_persists_chain_state cfgEx [blockEx] ["0x01", "0x02"] rfl
    (by decide) (Or.inl rfl)

/-- Witness for C2 at the record persisted for account `[1]`. -/
theorem account_total_eq_free_add_reserved_witness :
    (⟨"0x01", 10, 0, 10, 1400500⟩ : Account).total =
      (⟨"0x01", 10, 0, 10, 1400500⟩ : Account).free +
        (⟨"0x01", 10, 0, 10, 1400500⟩ : Account).reserved :=
  account_total_eq_free_add_reserved cfgEx [blockEx]
    ⟨[⟨"0xabc", "System", "Account", [[1], [2]]⟩],
      [⟨"0x01", 10, 0, 10, 1400500⟩, ⟨"0x02", 5, 2, 7, 1400500⟩], [], [], ["updated: 2"]⟩
    rfl ⟨"0x01", 10, 0, 10, 1400500⟩ (by decide)

/-- Witness for C3: the source characterization evaluated on `chainEx`, and
the warning outcome evaluated on a chain with no balance source. -/
theorem getBalances_source_priority_witness :
    (getBalances chainEx ⟨5, "0xh"⟩ [[1]]).2 = some [some ⟨10, 0⟩] ∧
    processBalances cfgNoneEx [blockEx] =
      Except.ok ⟨[], [], [], ["No balances"], []⟩ := by
  constructor
  · have h := (getBalances_source_priority chainEx ⟨5, "0xh"⟩ [[1]]).1
    rw [h]
    rfl
  · exact (getBalances_source_priority chainNoneEx blockEx.header [[1]]).2 cfgNoneEx
      [blockEx] ["0x01", "0x02"] rfl rfl rfl rfl (by decide)

/-- Witness for C4 at a transfer event with an unknown fingerprint. -/
theorem getTransferAccounts_unknown_version_witness :
    getTransferAccounts fpsEx badTransferEx =
      Except.error (UnknownVersionError "BalancesTransferEvent") ∧
    processBalances cfgEx [⟨⟨1400500, "0xabc"⟩, [Item.event badTransferEx]⟩] =
      Except.error (UnknownVersionError "BalancesTransferEvent") := by
  have h := getTransferAccounts_unknown_version fpsEx badTransferEx rfl
    (by decide) (by decide) (by decide)
  exact ⟨h.1, h.2 cfgEx ⟨1400500, "0xabc"⟩ [] [] [] rfl rfl⟩

/-- Witness for C5: a batch holding one unsigned call and one unsubscribed
event is a no-op. -/
theorem processBalances_empty_working_set_noop_witness :
    processBalances cfgEx [noopBlockEx] = Except.ok emptyEffects ∧
      emptyEffects.storageQueries = [] ∧ emptyEffects.saved = [] := by
  apply processBalances_empty_working_set_noop
  intro blk hblk i hi
  rw [List.mem_singleton] at hblk
  subst hblk
  have hi2 : i ∈ [Item.call unsignedCallEx, Item.event otherEventEx] := hi
  rcases List.mem_cons.mp hi2 with rfl | hi3
  · exact Or.inr (by decide)
  · rw [List.mem_singleton] at hi3
    subst hi3
    show otherEventEx.name ∉ subscribedEventNames
    decide

/-- Witness for C6: account `[3]` is collected but has no stored balance on
`chainEx`, accounts `[1]`/`[2]` resolve. -/
theorem unresolved_account_silently_skipped_witness :
    ∃ eff, processBalances cfgEx [blockC6Ex] = Except.ok eff ∧ eff.deleted = [] ∧
      ∀ hx ∈ ["0x01", "0x02", "0x03"],
        (resolvedBalance cfgEx.chain ([blockC6Ex].getLastD ⟨⟨0, ""⟩, []⟩).header.hash
            (decodeHex hx) = none →
          countKey eff.saved (cfgEx.encodeId (decodeHex hx)) = 0) ∧
        (∀ bal,
          resolvedBalance cfgEx.chain ([blockC6Ex].getLastD ⟨⟨0, ""⟩, []⟩).header.hash
              (decodeHex hx) = some bal →
            countKey eff.saved (cfgEx.encodeId (decodeHex hx)) = 1) :=
  unresolved_account_silently_skipped cfgEx [blockC6Ex] ["0x01", "0x02", "0x03"] rfl
    (by decide) (Or.inl rfl)

/-- Witness for C7 at a signed top-level call. -/
theorem processBalancesCallItem_signed_top_level_witness :
    (processBalancesCallItem signedCallEx [] =
      (if signedCallEx.parent = none ∧ signedCallEx.origin.kind = "system" ∧
          signedCallEx.origin.valueKind = "Signed"
        then setAdd [] signedCallEx.origin.value else []) ∧
    ∀ x, x ∈ processBalancesCallItem signedCallEx [] ↔
      x ∈ ([] : List String) ∨ (signedCallEx.parent = none ∧
        signedCallEx.origin.kind = "system" ∧
        signedCallEx.origin.valueKind = "Signed" ∧ x = signedCallEx.origin.value)) :=
  processBalancesCallItem_signed_top_level signedCallEx []

/-- Witness for C8 on a chain reporting the V1050 fingerprint. -/
theorem systemAccount_version_predicates_exclusive_witness :
    SystemAccountStorage.isV1050 chainEx = true ∧
    SystemAccountStorage.isV2025 chainEx = false ∧
    SystemAccountStorage.isV2028 chainEx = false ∧
    SystemAccountStorage.isV2030 chainEx = false := by
  have h := systemAccount_version_predicates_exclusive chainEx
  have h1050 : SystemAccountStorage.isV1050 chainEx = true := h.2.2.2.2.2.1 rfl
  obtain ⟨hx, hy, hz⟩ := h.2.1 h1050
  exact ⟨h1050, hx, hy, hz⟩

/-- Witness for C9 starting from the empty schema. -/
theorem migrations_round_trip_witness :
    (Init1655830554126.down
        (AddUpdatedAt1655843090639.down
          (AddUpdatedAt1655843090639.up (Init1655830554126.up []))) = [] ∧
      ∀ t ∈ Init1655830554126.down
          (AddUpdatedAt1655843090639.down
            (AddUpdatedAt1655843090639.up (Init1655830554126.up []))),
        t.name ≠ "account" ∧ t.name ≠ "snapshot") ∧
    (AddUpdatedAt1655843090639.up (Init1655830554126.up [])).filter
        (fun t => t.name == "account") = [accountTableFinal] ∧
    accountTableFinal.columns.map (fun c => (c.name, c.notNull)) =
      [("id", true), ("free", true), ("reserved", true), ("total", true),
       ("updated_at", false)] :=
  migrations_round_trip [] (by simp) (by simp)

/-- Witness for C10 at an unsubscribed event name. -/
theorem processBalancesEventItem_unrecognized_noop_witness :
    processBalancesEventItem fpsEx otherEventEx ["0x01"] = Except.ok ["0x01"] :=
  processBalancesEventItem_unrecognized_noop fpsEx otherEventEx ["0x01"] (by decide)
